import Mathlib

/-!
Shallow embedding of the adaptive rate-limited request dispatcher
(src/services/rate_limiter.py) and the concurrent purchase worker
(src/services/threaded_purchase_manager.py) of the tgstickers-auto-mint
repository, together with proofs about the behaviour its specification
describes.
-/

namespace TgStickers

/-! ### Python numeric string parsing (int() / float() on header values) -/

/-- Numeric value of a decimal digit character. -/
def digitToNat (c : Char) : Nat := c.toNat - 48

/-- Value of a nonempty all-digit character list, else none.
Models the digit parsing inside Python int(). -/
def digitsVal? (l : List Char) : Option Nat :=
  if !l.isEmpty && l.all (fun c => c.isDigit) then
    some (l.foldl (fun acc c => acc * 10 + digitToNat c) 0)
  else none

/-- Python int(s) on a header string: optional sign followed by digits;
anything else raises ValueError (modelled as none). -/
def pyInt? (s : String) : Option Int :=
  match s.data with
  | '-' :: rest => (digitsVal? rest).map (fun n => -(n : Int))
  | '+' :: rest => (digitsVal? rest).map (fun n => (n : Int))
  | l => (digitsVal? l).map (fun n => (n : Int))

/-- Value of a digit list, empty list giving 0 (helper for float parsing). -/
def digitsNat (l : List Char) : Nat :=
  l.foldl (fun acc c => acc * 10 + digitToNat c) 0

/-- Unsigned part of Python float(s): digits, optionally a decimal point
and fractional digits; anything else raises ValueError (none). -/
def pyFloatCore? (l : List Char) : Option ℚ :=
  let intPart := l.takeWhile (fun c => c.isDigit)
  let rest := l.dropWhile (fun c => c.isDigit)
  match rest with
  | [] => if intPart.isEmpty then none else some ((digitsNat intPart : ℚ))
  | '.' :: frac =>
    if frac.all (fun c => c.isDigit) && !(intPart.isEmpty && frac.isEmpty) then
      some ((digitsNat intPart : ℚ) + (digitsNat frac : ℚ) / ((10 : ℚ) ^ frac.length))
    else none
  | _ => none

/-- Python float(s) on a header string: optional sign then an unsigned
decimal literal; failure modelled as none. -/
def pyFloat? (s : String) : Option ℚ :=
  match s.data with
  | '-' :: rest => (pyFloatCore? rest).map (fun q => -q)
  | '+' :: rest => pyFloatCore? rest
  | l => pyFloatCore? l

/-- Python truthiness of an Optional[int]: false for None and for 0. -/
def pyTruthyInt : Option Int → Bool
  | none => false
  | some n => decide (n ≠ 0)

/-! ### RateLimitState and the dispatcher service (rate_limiter.py) -/

/-- Rate limit state from API headers (dataclass RateLimitState). -/
structure RateLimitState where
  remaining : Int := 1000
  reset_timestamp : ℚ := 0
  retry_after : Option Int := none
  last_updated : ℚ := 0
deriving DecidableEq, Repr

/-- Property seconds_until_reset, with the current wall time passed
explicitly in place of time.time(). -/
def seconds_until_reset (s : RateLimitState) (now : ℚ) : ℚ :=
  max 0 (s.reset_timestamp - now)

/-- Property is_exhausted of RateLimitState. -/
def is_exhausted (s : RateLimitState) (now : ℚ) : Bool :=
  decide (s.remaining ≤ 0) && decide (0 < seconds_until_reset s now)

/-- The mutable fields of RateLimiterService relevant to throttling and
caching, plus the two configuration values set in __init__ (production
mode: max_wait_time = 300, circuit_breaker_duration = 300). -/
structure RateLimiterService where
  state : RateLimitState
  consecutive_failures : Nat
  circuit_breaker_until : ℚ
  max_wait_time : ℚ
  circuit_breaker_duration : ℚ
  etag_cache : String → Option String
  last_modified_cache : String → Option String

/-- A freshly constructed production-mode RateLimiterService with no
persisted row to load. -/
def initService : RateLimiterService where
  state := {}
  consecutive_failures := 0
  circuit_breaker_until := 0
  max_wait_time := 300
  circuit_breaker_duration := 300
  etag_cache := fun _ => none
  last_modified_cache := fun _ => none

/-- Response headers, as the lookup function of a Python dict. -/
def Headers : Type := String → Option String

/-- Header-map constructor from an association list (first match wins). -/
def hdrs (l : List (String × String)) : Headers :=
  fun k => (l.find? (fun p => p.1 == k)).map (fun p => p.2)

/-- The x-ratelimit-remaining parse step of update_from_headers: absent
header leaves the state alone, unparsable value raises (error carries the
state as mutated so far). -/
def parseRemainingStep (h : Headers) (s : RateLimitState) :
    Except RateLimitState RateLimitState :=
  match h "x-ratelimit-remaining" with
  | none => .ok s
  | some v =>
    match pyInt? v with
    | none => .error s
    | some n => .ok { s with remaining := n }

/-- The x-ratelimit-reset parse step of update_from_headers. -/
def parseResetStep (h : Headers) (s : RateLimitState) :
    Except RateLimitState RateLimitState :=
  match h "x-ratelimit-reset" with
  | none => .ok s
  | some v =>
    match pyFloat? v with
    | none => .error s
    | some q => .ok { s with reset_timestamp := q }

/-- The retry-after parse step of update_from_headers. -/
def parseRetryAfterStep (h : Headers) (s : RateLimitState) :
    Except RateLimitState RateLimitState :=
  match h "retry-after" with
  | none => .ok s
  | some v =>
    match pyInt? v with
    | none => .error s
    | some n => .ok { s with retry_after := some n }

/-- The three sequential header parses at the top of update_from_headers;
a ValueError in any step aborts the rest, keeping earlier mutations. -/
def parseQuotaHeaders (h : Headers) (s : RateLimitState) :
    Except RateLimitState RateLimitState :=
  match parseRemainingStep h s with
  | .error s' => .error s'
  | .ok s1 =>
    match parseResetStep h s1 with
    | .error s' => .error s'
    | .ok s2 => parseRetryAfterStep h s2

/-- update_from_headers(headers, status_code) at wall time now. Returns
the service after the call together with a flag recording whether
_save_state was reached (the except clause swallows parse errors before
the 429 bookkeeping and the save). -/
def update_from_headers (svc : RateLimiterService) (h : Headers)
    (status_code : Int) (now : ℚ) : RateLimiterService × Bool :=
  match parseQuotaHeaders h svc.state with
  | .error s' => ({ svc with state := s' }, false)
  | .ok s1 =>
    let s2 := { s1 with last_updated := now }
    if status_code = 429 then
      let cf := svc.consecutive_failures + 1
      if 3 ≤ cf then
        ({ svc with state := s2, consecutive_failures := cf,
                    circuit_breaker_until := now + svc.circuit_breaker_duration }, true)
      else
        ({ svc with state := s2, consecutive_failures := cf }, true)
    else
      ({ svc with state := s2, consecutive_failures := 0 }, true)

/-- Folding a sequence of update_from_headers calls (header map, status
code, wall time) over a service. -/
def runUpdates (svc : RateLimiterService)
    (calls : List (Headers × Int × ℚ)) : RateLimiterService :=
  calls.foldl (fun s c => (update_from_headers s c.1 c.2.1 c.2.2).1) svc

/-- get_conditional_headers(url): validator headers for a cached target. -/
def get_conditional_headers (svc : RateLimiterService) (url : String) :
    List (String × String) :=
  (match svc.etag_cache url with
   | some e => [("If-None-Match", e)]
   | none => []) ++
  (match svc.last_modified_cache url with
   | some m => [("If-Modified-Since", m)]
   | none => [])

/-- update_cache_headers(url, headers): capture validators from a
response into the per-target caches. -/
def update_cache_headers (svc : RateLimiterService) (url : String)
    (h : Headers) : RateLimiterService :=
  let svc1 :=
    match h "etag" with
    | some v => { svc with etag_cache := fun u => if u = url then some v else svc.etag_cache u }
    | none => svc
  match h "last-modified" with
  | some v => { svc1 with last_modified_cache := fun u => if u = url then some v else svc1.last_modified_cache u }
  | none => svc1

/-- Lookup in a built header list (for inspecting conditional headers). -/
def lookupHeader (l : List (String × String)) (k : String) : Option String :=
  (l.find? (fun p => p.1 == k)).map (fun p => p.2)

/-- The exponential branch of calculate_backoff_delay: capped exponential
plus 0-10 percent jitter, with the jitter draw r (random.random())
passed explicitly. -/
def backoffNoRetryAfter (max_wait : ℚ) (attempt : Nat) (base_delay r : ℚ) : ℚ :=
  let delay := min ((2 ^ attempt : ℚ) * base_delay) max_wait
  delay + delay * (1 / 10) * r

/-- calculate_backoff_delay(attempt, base_delay) with the jitter draw r
explicit. The Python guard is the truthiness test if self.state.retry_after,
so None and 0 both fall through to the exponential branch. -/
def calculate_backoff_delay (svc : RateLimiterService) (attempt : Nat)
    (base_delay r : ℚ) : ℚ :=
  match svc.state.retry_after with
  | some ra =>
    if ra = 0 then backoffNoRetryAfter svc.max_wait_time attempt base_delay r
    else min (ra : ℚ) svc.max_wait_time
  | none => backoffNoRetryAfter svc.max_wait_time attempt base_delay r

/-- The wait chosen by should_wait_before_request at wall time now. -/
inductive WaitDecision where
  | breakerWait (t : ℚ)
  | exhaustedWait (t : ℚ)
  | lowQuotaWait (t : ℚ)
  | noWait
deriving DecidableEq, Repr

/-- should_wait_before_request as a pure decision on the current state. -/
def should_wait_decision (svc : RateLimiterService) (now : ℚ) : WaitDecision :=
  if now < svc.circuit_breaker_until then
    .breakerWait (svc.circuit_breaker_until - now)
  else if is_exhausted svc.state now then
    .exhaustedWait (min (seconds_until_reset svc.state now + 1) svc.max_wait_time)
  else if svc.state.remaining ≤ 10 then
    .lowQuotaWait (min 60 svc.max_wait_time)
  else .noWait

/-- Whether a wait decision is the circuit-breaker wait. -/
def isBreakerWait : WaitDecision → Bool
  | .breakerWait _ => true
  | _ => false

/-- The circuit_breaker_active entry of get_metrics. -/
def circuitBreakerActive (svc : RateLimiterService) (now : ℚ) : Bool :=
  decide (now < svc.circuit_breaker_until)

/-- Hypothesis that every quota header present in a map parses, so
update_from_headers raises no ValueError. -/
def parsesOK (h : Headers) : Prop :=
  (∀ v, h "x-ratelimit-remaining" = some v → (pyInt? v).isSome = true) ∧
  (∀ v, h "x-ratelimit-reset" = some v → (pyFloat? v).isSome = true) ∧
  (∀ v, h "retry-after" = some v → (pyInt? v).isSome = true)

/-- Hypothesis that a parse error occurs in update_from_headers: some
present quota header has an unparsable value. -/
def hasParseFailure (h : Headers) : Prop :=
  (∃ v, h "x-ratelimit-remaining" = some v ∧ pyInt? v = none) ∨
  (∃ v, h "x-ratelimit-reset" = some v ∧ pyFloat? v = none) ∨
  (∃ v, h "retry-after" = some v ∧ pyInt? v = none)

/-! ### Persistence (_save_state / _load_state over the SQLite table) -/

/-- One row of the rate_limit_state table. -/
structure StateRow where
  remaining : Int
  reset_timestamp : ℚ
  retry_after : Option Int
  last_updated : ℚ
  etag_cache : List (String × String)
  last_modified_cache : List (String × String)
deriving DecidableEq, Repr

/-- _save_state: INSERT appends a fresh row (id autoincrements). -/
def save_state (db : List StateRow) (row : StateRow) : List StateRow :=
  db ++ [row]

/-- _load_state row selection: SELECT ... ORDER BY id DESC LIMIT 1 picks
the most recently inserted row. -/
def load_state (db : List StateRow) : Option StateRow :=
  db.getLast?

/-- The RateLimitState held by a freshly constructed dispatcher over the
given store: the loaded row if one exists, else the dataclass defaults. -/
def loadedRateLimitState (db : List StateRow) : RateLimitState :=
  match load_state db with
  | some row =>
    { remaining := row.remaining
      reset_timestamp := row.reset_timestamp
      retry_after := row.retry_after
      last_updated := row.last_updated }
  | none => {}

/-- Constructing a dispatcher performs a read-only load: it yields the
loaded state and leaves the store unchanged. -/
def constructLoad (db : List StateRow) : RateLimitState × List StateRow :=
  (loadedRateLimitState db, db)

/-! ### The priority queue of RequestItems and the dispatch order -/

/-- A queued request item. priority is the numeric tier value
(CRITICAL = 1, HIGH = 2, NORMAL = 3, LOW = 4), created_at the wall time
sampled at enqueue, uid the CPython id() used as queue tiebreaker. -/
structure RequestItem where
  priority : Nat
  created_at : ℚ
  uid : Nat
  retries : Nat
  max_retries : Nat
deriving DecidableEq, Repr

/-- The tuple pushed on the asyncio.PriorityQueue, minus the item itself:
(priority.value, created_at, id(request_item)). -/
def queueKey (it : RequestItem) : Nat × ℚ × Nat :=
  (it.priority, it.created_at, it.uid)

/-- The retry path of _process_queue increments retries and re-enqueues
the same item object. -/
def retryBump (it : RequestItem) : RequestItem :=
  { it with retries := it.retries + 1 }

/-- Comparison used by the heap: lexicographic on the pushed tuple
(priority value, creation time, id). -/
def keyLe (a b : RequestItem) : Prop :=
  a.priority < b.priority ∨
    (a.priority = b.priority ∧
      (a.created_at < b.created_at ∨
        (a.created_at = b.created_at ∧ a.uid ≤ b.uid)))

instance : DecidableRel keyLe := fun a b => by
  unfold keyLe; infer_instance

/-- The spec's dispatch-order relation: by priority tier, ties broken by
original creation time only. -/
def stableLe (a b : RequestItem) : Prop :=
  a.priority < b.priority ∨ (a.priority = b.priority ∧ a.created_at ≤ b.created_at)

instance : DecidableRel stableLe := fun a b => by
  unfold stableLe; infer_instance

instance : IsTotal RequestItem stableLe where
  total a b := by
    unfold stableLe
    rcases lt_trichotomy a.priority b.priority with h | h | h
    · exact Or.inl (Or.inl h)
    · rcases le_total a.created_at b.created_at with h' | h'
      · exact Or.inl (Or.inr ⟨h, h'⟩)
      · exact Or.inr (Or.inr ⟨h.symm, h'⟩)
    · exact Or.inr (Or.inl h)

instance : IsTrans RequestItem stableLe where
  trans a b c hab hbc := by
    unfold stableLe at *
    rcases hab with h1 | ⟨h1, h1'⟩ <;> rcases hbc with h2 | ⟨h2, h2'⟩
    · exact Or.inl (h1.trans h2)
    · exact Or.inl (h2 ▸ h1)
    · exact Or.inl (h1 ▸ h2)
    · exact Or.inr ⟨h1.trans h2, h1'.trans h2'⟩

/-- Select the heap minimum among a nonempty collection: returns the
minimal item under keyLe and the remaining items. -/
def selectMin (a : RequestItem) : List RequestItem → RequestItem × List RequestItem
  | [] => (a, [])
  | b :: l =>
    if keyLe a b then
      ((selectMin a l).1, b :: (selectMin a l).2)
    else
      ((selectMin b l).1, a :: (selectMin b l).2)

/-- Repeatedly pop the heap minimum, fuel-bounded for structural
recursion; fuel at least the length drains the whole queue. -/
def drainFuel : Nat → List RequestItem → List RequestItem
  | 0, _ => []
  | _ + 1, [] => []
  | fuel + 1, a :: l =>
    (selectMin a l).1 :: drainFuel fuel (selectMin a l).2

/-- The order in which the _process_queue loop pops (and hence executes)
a batch of enqueued items. -/
def drain (l : List RequestItem) : List RequestItem :=
  drainFuel l.length l

/-! ### Retry bookkeeping of _process_queue (one item's lifecycle) -/

/-- Outcome of one execution attempt of an item's operation. -/
inductive Outcome where
  | ok
  | err (msg : String)
deriving DecidableEq, Repr

/-- What _process_queue does with an item after one attempt: resolve its
future, re-enqueue it for retry, or reject its future. -/
inductive StepResult where
  | resolved
  | reenqueued (it : RequestItem)
  | rejected (it : RequestItem) (msg : String)
deriving DecidableEq, Repr

/-- One iteration of the try/except body of _process_queue for a given
item and attempt outcome. -/
def processAttempt (it : RequestItem) : Outcome → StepResult
  | .ok => .resolved
  | .err e =>
    if (retryBump it).retries < (retryBump it).max_retries then
      .reenqueued (retryBump it)
    else
      .rejected (retryBump it) e

/-- The successive dispositions of one item across a sequence of attempt
outcomes: stops at the first resolution or rejection. -/
def runItem (it : RequestItem) : List Outcome → List StepResult
  | [] => []
  | o :: rest =>
    match processAttempt it o with
    | .resolved => [.resolved]
    | .rejected it' e => [.rejected it' e]
    | .reenqueued it' => .reenqueued it' :: runItem it' rest

/-- Retry-count bound on one disposition in an item's trace. -/
def boundOK (m : Nat) : StepResult → Prop
  | .resolved => True
  | .reenqueued it => it.retries ≤ m
  | .rejected it _ => it.retries ≤ m

/-! ### PurchaseWorker.execute_task (threaded_purchase_manager.py) -/

/-- The fields of a PurchaseResult that execute_task inspects. -/
structure PurchaseResult where
  is_successful : Bool
  error_message : Option String
deriving DecidableEq, Repr

/-- Result from a purchase worker (dataclass WorkerResult). -/
structure WorkerResult where
  worker_id : Nat
  success : Bool
  stickers_bought : Nat
  error : Option String
  proxy_used : Option String
  execution_time : ℚ
deriving DecidableEq, Repr

/-- next((r.error_message for r in reversed(results) if r.error_message), None):
the latest truthy (present and nonempty) error message. -/
def lastError (results : List PurchaseResult) : Option String :=
  (((results.reverse.filterMap (fun r => r.error_message)).filter
    (fun s => !s.isEmpty))).head?

/-- PurchaseWorker.execute_task, as a function of the outcome of
execute_multiple_purchases: either a raised exception message or the
purchase result list. The elapsed time is passed explicitly. -/
def executeTask (worker_id : Nat) (proxy_url : String) (t : ℚ)
    (outcome : Except String (List PurchaseResult)) : WorkerResult :=
  match outcome with
  | .error e =>
    { worker_id := worker_id, success := false, stickers_bought := 0,
      error := some e, proxy_used := some proxy_url, execution_time := t }
  | .ok results =>
    let successful_count := (results.filter (fun r => r.is_successful)).length
    if 0 < successful_count then
      { worker_id := worker_id, success := true, stickers_bought := successful_count,
        error := none, proxy_used := some proxy_url, execution_time := t }
    else
      let error_msg :=
        match lastError results with
        | some s => s
        | none => "All purchase attempts failed"
      { worker_id := worker_id, success := false, stickers_bought := 0,
        error := some error_msg, proxy_used := some proxy_url, execution_time := t }

/-- Whether a task outcome counts as a success for execute_task. -/
def taskSucceeds : Except String (List PurchaseResult) → Bool
  | .error _ => false
  | .ok results => decide (0 < (results.filter (fun r => r.is_successful)).length)

/-! ## Helper lemmas about the queue order -/

theorem keyLe_refl (a : RequestItem) : keyLe a a :=
  Or.inr ⟨rfl, Or.inr ⟨rfl, le_refl _⟩⟩

theorem keyLe_total (a b : RequestItem) : keyLe a b ∨ keyLe b a := by
  unfold keyLe
  rcases lt_trichotomy a.priority b.priority with h | h | h
  · exact Or.inl (Or.inl h)
  · rcases lt_trichotomy a.created_at b.created_at with h' | h' | h'
    · exact Or.inl (Or.inr ⟨h, Or.inl h'⟩)
    · rcases le_total a.uid b.uid with h'' | h''
      · exact Or.inl (Or.inr ⟨h, Or.inr ⟨h', h''⟩⟩)
      · exact Or.inr (Or.inr ⟨h.symm, Or.inr ⟨h'.symm, h''⟩⟩)
    · exact Or.inr (Or.inr ⟨h.symm, Or.inl h'⟩)
  · exact Or.inr (Or.inl h)

theorem keyLe_trans {a b c : RequestItem} (hab : keyLe a b) (hbc : keyLe b c) :
    keyLe a c := by
  unfold keyLe at *
  rcases hab with h1 | ⟨h1, h1'⟩ <;> rcases hbc with h2 | ⟨h2, h2'⟩
  · exact Or.inl (h1.trans h2)
  · exact Or.inl (h2 ▸ h1)
  · exact Or.inl (h1 ▸ h2)
  · refine Or.inr ⟨h1.trans h2, ?_⟩
    rcases h1' with h3 | ⟨h3, h3'⟩ <;> rcases h2' with h4 | ⟨h4, h4'⟩
    · exact Or.inl (h3.trans h4)
    · exact Or.inl (h4 ▸ h3)
    · exact Or.inl (h3 ▸ h4)
    · exact Or.inr ⟨h3.trans h4, h3'.trans h4'⟩

theorem keyLe_stableLe {a b : RequestItem} (h : keyLe a b) : stableLe a b := by
  unfold keyLe stableLe at *
  rcases h with h | ⟨h, h'⟩
  · exact Or.inl h
  · refine Or.inr ⟨h, ?_⟩
    rcases h' with h'' | ⟨h'', _⟩
    · exact le_of_lt h''
    · exact le_of_eq h''

theorem stableLe_antisymm_parts {a b : RequestItem} (hab : stableLe a b)
    (hba : stableLe b a) : a.priority = b.priority ∧ a.created_at = b.created_at := by
  unfold stableLe at *
  rcases hab with h1 | ⟨h1, h1'⟩ <;> rcases hba with h2 | ⟨h2, h2'⟩
  · exact absurd (h1.trans h2) (lt_irrefl _)
  · exact absurd (h2 ▸ h1) (lt_irrefl _)
  · exact absurd (h1 ▸ h2) (lt_irrefl _)
  · exact ⟨h1, le_antisymm h1' h2'⟩

theorem selectMin_snd_length (a : RequestItem) (l : List RequestItem) :
    ((selectMin a l).2).length = l.length := by
  induction l generalizing a with
  | nil => rfl
  | cons b l ih =>
    by_cases h : keyLe a b <;> simp [selectMin, h, ih]

theorem selectMin_perm (a : RequestItem) (l : List RequestItem) :
    List.Perm ((selectMin a l).1 :: (selectMin a l).2) (a :: l) := by
  induction l generalizing a with
  | nil => rfl
  | cons b l ih =>
    by_cases h : keyLe a b
    · simp only [selectMin, if_pos h]
      exact ((List.Perm.swap b (selectMin a l).1 (selectMin a l).2).trans
        ((ih a).cons b)).trans (List.Perm.swap a b l)
    · simp only [selectMin, if_neg h]
      exact (List.Perm.swap a (selectMin b l).1 (selectMin b l).2).trans
        ((ih b).cons a)

theorem selectMin_min (a : RequestItem) (l : List RequestItem) :
    ∀ x ∈ a :: l, keyLe (selectMin a l).1 x := by
  induction l generalizing a with
  | nil =>
    intro x hx
    rcases List.mem_singleton.1 hx with rfl
    exact keyLe_refl x
  | cons b l ih =>
    intro x hx
    by_cases h : keyLe a b
    · simp only [selectMin, if_pos h]
      rcases List.mem_cons.1 hx with rfl | hx'
      · exact ih x x (List.mem_cons_self x l)
      · rcases List.mem_cons.1 hx' with rfl | hx''
        · exact keyLe_trans (ih a a (List.mem_cons_self a l)) h
        · exact ih a x (List.mem_cons_of_mem a hx'')
    · have hba : keyLe b a := (keyLe_total a b).resolve_left h
      simp only [selectMin, if_neg h]
      rcases List.mem_cons.1 hx with rfl | hx'
      · exact keyLe_trans (ih b b (List.mem_cons_self b l)) hba
      · rcases List.mem_cons.1 hx' with rfl | hx''
        · exact ih x x (List.mem_cons_self x l)
        · exact ih b x (List.mem_cons_of_mem b hx'')

theorem drainFuel_perm :
    ∀ (fuel : Nat) (l : List RequestItem), l.length ≤ fuel →
      List.Perm (drainFuel fuel l) l
  | 0, [], _ => by rfl
  | 0, _ :: _, h => by simp at h
  | _ + 1, [], _ => by rfl
  | fuel + 1, a :: l, h => by
    have hlen : ((selectMin a l).2).length ≤ fuel := by
      rw [selectMin_snd_length]
      simpa using h
    have ih := drainFuel_perm fuel (selectMin a l).2 hlen
    exact (ih.cons (selectMin a l).1).trans (selectMin_perm a l)

theorem drainFuel_sorted :
    ∀ (fuel : Nat) (l : List RequestItem), l.length ≤ fuel →
      (drainFuel fuel l).Sorted stableLe
  | 0, [], _ => List.sorted_nil
  | 0, _ :: _, h => by simp at h
  | _ + 1, [], _ => List.sorted_nil
  | fuel + 1, a :: l, h => by
    have hlen : ((selectMin a l).2).length ≤ fuel := by
      rw [selectMin_snd_length]
      simpa using h
    have ih := drainFuel_sorted fuel (selectMin a l).2 hlen
    rw [show drainFuel (fuel + 1) (a :: l)
        = (selectMin a l).1 :: drainFuel fuel (selectMin a l).2 from rfl,
      List.sorted_cons]
    refine ⟨fun x hx => ?_, ih⟩
    have hx1 : x ∈ (selectMin a l).2 := ((drainFuel_perm fuel _ hlen).mem_iff).1 hx
    have hx2 : x ∈ a :: l :=
      (selectMin_perm a l).mem_iff.1 (List.mem_cons_of_mem _ hx1)
    exact keyLe_stableLe (selectMin_min a l x hx2)

theorem drain_perm (l : List RequestItem) : List.Perm (drain l) l :=
  drainFuel_perm l.length l (le_refl _)

theorem drain_sorted (l : List RequestItem) : (drain l).Sorted stableLe :=
  drainFuel_sorted l.length l (le_refl _)

/-- Two sorted permutations of one another agree when creation times are
pairwise distinct (the only stableLe ties are between equal items). -/
theorem sorted_perm_eq_of_distinct :
    ∀ (l₁ l₂ : List RequestItem), List.Perm l₁ l₂ → l₁.Sorted stableLe →
      l₂.Sorted stableLe →
      l₁.Pairwise (fun a b => a.created_at ≠ b.created_at) → l₁ = l₂
  | [], l₂, hp, _, _, _ => hp.nil_eq
  | a :: t₁, l₂, hp, hs₁, hs₂, hd => by
    cases l₂ with
    | nil => exact absurd hp.symm.nil_eq (by simp)
    | cons b t₂ =>
      have hba : b = a := by
        by_cases hab : b = a
        · exact hab
        · have hbmem : b ∈ t₁ := by
            have : b ∈ a :: t₁ := hp.symm.subset (List.mem_cons_self b t₂)
            rcases List.mem_cons.1 this with h | h
            · exact absurd h hab
            · exact h
          have hamem : a ∈ t₂ := by
            have : a ∈ b :: t₂ := hp.subset (List.mem_cons_self a t₁)
            rcases List.mem_cons.1 this with h | h
            · exact absurd h.symm hab
            · exact h
          have h1 : stableLe a b := (List.sorted_cons.1 hs₁).1 b hbmem
          have h2 : stableLe b a := (List.sorted_cons.1 hs₂).1 a hamem
          have hcreated := (stableLe_antisymm_parts h1 h2).2
          have hne := (List.pairwise_cons.1 hd).1 b hbmem
          exact absurd hcreated hne
      subst hba
      have htail : List.Perm t₁ t₂ := hp.cons_inv
      have := sorted_perm_eq_of_distinct t₁ t₂ htail
        (List.sorted_cons.1 hs₁).2 (List.sorted_cons.1 hs₂).2
        (List.pairwise_cons.1 hd).2
      rw [this]

/-! ## Claim C1 -/

/-- C1: for a batch of enqueued items whose creation times are pairwise
distinct (time.time() is sampled afresh at each enqueue), the dispatch
loop pops items in exactly the stable sort order by (priority tier value,
original creation time) - so a CRITICAL item enqueued after a NORMAL item
still executes first - and a retry re-enqueue pushes the very same queue
key, built from the original creation time rather than the retry time. -/
theorem c1_dispatch_order (l : List RequestItem)
    (hd : l.Pairwise (fun a b => a.created_at ≠ b.created_at)) :
    drain l = List.insertionSort stableLe l ∧
    ∀ it : RequestItem, queueKey (retryBump it) = queueKey it := by
  refine ⟨?_, fun it => rfl⟩
  have hperm : List.Perm (drain l) (List.insertionSort stableLe l) :=
    (drain_perm l).trans (List.perm_insertionSort stableLe l).symm
  have hdist : (drain l).Pairwise (fun a b => a.created_at ≠ b.created_at) :=
    ((drain_perm l).pairwise_iff (fun h => Ne.symm h)).mpr hd
  exact sorted_perm_eq_of_distinct _ _ hperm (drain_sorted l)
    (List.sorted_insertionSort stableLe l) hdist

/-- A NORMAL-priority item enqueued first. -/
def itemNormal : RequestItem :=
  { priority := 3, created_at := 0, uid := 10, retries := 0, max_retries := 5 }

/-- A CRITICAL-priority item enqueued later. -/
def itemCritical : RequestItem :=
  { priority := 1, created_at := 1, uid := 11, retries := 0, max_retries := 5 }

/-- Witness for c1_dispatch_order: a CRITICAL item enqueued after a NORMAL
item is popped first, matching the stable sort. -/
theorem c1_dispatch_order_witness :
    List.Pairwise (fun a b => a.created_at ≠ b.created_at) [itemNormal, itemCritical] ∧
    drain [itemNormal, itemCritical] =
      List.insertionSort stableLe [itemNormal, itemCritical] ∧
    drain [itemNormal, itemCritical] = [itemCritical, itemNormal] :=
  ⟨by decide, (c1_dispatch_order [itemNormal, itemCritical] (by decide)).1, by decide⟩

/-! ## Claim C3 -/

/-- C3 counterexample: the code adds jitter after applying the cap, so at
attempt 20 with base delay 1 and jitter draw one half the delay is 315,
exceeding max_wait_seconds = 300. -/
theorem c3_counterexample :
    initService.state.retry_after = none ∧
    initService.max_wait_time = 300 ∧
    calculate_backoff_delay initService 20 1 (1 / 2) = 315 ∧
    ¬(calculate_backoff_delay initService 20 1 (1 / 2) ≤ initService.max_wait_time) := by
  refine ⟨rfl, rfl, ?_, ?_⟩ <;>
    norm_num [calculate_backoff_delay, backoffNoRetryAfter, initService]

/-- C3 amended: with no stored retry-after value, for every attempt, every
nonnegative base delay and every jitter draw in the unit interval, the
delay is bounded by 1.1 times max_wait_seconds (the pre-jitter delay is
capped at max_wait_seconds and at most 10 percent jitter is added). -/
theorem c3_amended_backoff_cap (svc : RateLimiterService) (attempt : Nat)
    (base_delay r : ℚ) (hra : svc.state.retry_after = none)
    (hmw : 0 ≤ svc.max_wait_time) (hb : 0 ≤ base_delay)
    (hr0 : 0 ≤ r) (hr1 : r < 1) :
    calculate_backoff_delay svc attempt base_delay r ≤ 11 / 10 * svc.max_wait_time := by
  simp only [calculate_backoff_delay, hra, backoffNoRetryAfter]
  have h0 : (0 : ℚ) ≤ min ((2 ^ attempt : ℚ) * base_delay) svc.max_wait_time :=
    le_min (by positivity) hmw
  have h1 : min ((2 ^ attempt : ℚ) * base_delay) svc.max_wait_time ≤ svc.max_wait_time :=
    min_le_right _ _
  nlinarith

/-- Witness for c3_amended_backoff_cap at attempt 20, base delay 1, jitter
draw one half on the production configuration. -/
theorem c3_amended_backoff_cap_witness :
    initService.state.retry_after = none ∧
    calculate_backoff_delay initService 20 1 (1 / 2) ≤ 11 / 10 * initService.max_wait_time :=
  ⟨rfl, c3_amended_backoff_cap initService 20 1 (1 / 2) rfl
    (by norm_num [initService]) (by norm_num) (by norm_num) (by norm_num)⟩

/-! ## Claim C4 -/

/-- The dispatcher state after a response carrying retry-after 0 (Python
truthiness makes the value 0 fall through to the exponential branch). -/
def serviceRetryAfterZero : RateLimiterService :=
  { initService with state := { initService.state with retry_after := some 0 } }

/-- C4 counterexample: a stored retry-after value of 0 is smaller than
max_wait_seconds, yet calculate_backoff_delay does not return it - the
falsy value 0 falls through to the exponential branch, giving 2. -/
theorem c4_counterexample :
    serviceRetryAfterZero.state.retry_after = some 0 ∧
    (0 : ℚ) < serviceRetryAfterZero.max_wait_time ∧
    calculate_backoff_delay serviceRetryAfterZero 1 1 0 = 2 ∧
    calculate_backoff_delay serviceRetryAfterZero 1 1 0 ≠ 0 := by
  refine ⟨rfl, by norm_num [serviceRetryAfterZero, initService], ?_, ?_⟩ <;>
    norm_num [calculate_backoff_delay, backoffNoRetryAfter, serviceRetryAfterZero,
      initService]

/-- C4 amended: whenever the state carries a nonzero retry-after value,
calculate_backoff_delay returns exactly min(retry_after, max_wait_seconds),
independently of the attempt, the base delay and the jitter draw (no
jitter is added in this branch). -/
theorem c4_amended_retry_after_precedence (svc : RateLimiterService) (ra : Int)
    (h : svc.state.retry_after = some ra) (h0 : ra ≠ 0)
    (attempt : Nat) (base_delay r : ℚ) :
    calculate_backoff_delay svc attempt base_delay r = min (ra : ℚ) svc.max_wait_time := by
  simp [calculate_backoff_delay, h, h0]

/-- The dispatcher state after a response carrying retry-after 30. -/
def serviceRetryAfter30 : RateLimiterService :=
  { initService with state := { initService.state with retry_after := some 30 } }

/-- Witness for c4_amended_retry_after_precedence: retry-after 30 below the
cap is returned exactly, whatever the jitter draw. -/
theorem c4_amended_retry_after_precedence_witness :
    serviceRetryAfter30.state.retry_after = some 30 ∧
    calculate_backoff_delay serviceRetryAfter30 7 1 (9 / 10) = 30 := by
  refine ⟨rfl, ?_⟩
  rw [c4_amended_retry_after_precedence serviceRetryAfter30 30 rfl (by norm_num) 7 1 (9 / 10)]
  norm_num [serviceRetryAfter30, initService]

/-! ## Claim C6 -/

/-- C6: saving a state row and then constructing a fresh dispatcher over
the same store loads exactly that row (in particular its remaining field);
the load is read-only, so a second fresh construction sees the same state;
and after two saves the most recent row wins. -/
theorem c6_persistence_roundtrip (db : List StateRow) (row row2 : StateRow) :
    load_state (save_state db row) = some row ∧
    (loadedRateLimitState (save_state db row)).remaining = row.remaining ∧
    (constructLoad ((constructLoad (save_state db row)).2)).1 =
      (constructLoad (save_state db row)).1 ∧
    load_state (save_state (save_state db row) row2) = some row2 := by
  have h1 : load_state (save_state db row) = some row := by
    simp [load_state, save_state]
  refine ⟨h1, ?_, rfl, ?_⟩
  · simp [loadedRateLimitState, h1]
  · simp [load_state, save_state]

/-! ## Claim C2 -/

theorem parseRemainingStep_ok (h : Headers) (s : RateLimitState)
    (hp : ∀ v, h "x-ratelimit-remaining" = some v → (pyInt? v).isSome = true) :
    ∃ s', parseRemainingStep h s = .ok s' := by
  cases hv : h "x-ratelimit-remaining" with
  | none => exact ⟨s, by simp [parseRemainingStep, hv]⟩
  | some v =>
    cases hn : pyInt? v with
    | none => have := hp v hv; rw [hn] at this; simp at this
    | some n => exact ⟨{ s with remaining := n }, by simp [parseRemainingStep, hv, hn]⟩

theorem parseResetStep_ok (h : Headers) (s : RateLimitState)
    (hp : ∀ v, h "x-ratelimit-reset" = some v → (pyFloat? v).isSome = true) :
    ∃ s', parseResetStep h s = .ok s' := by
  cases hv : h "x-ratelimit-reset" with
  | none => exact ⟨s, by simp [parseResetStep, hv]⟩
  | some v =>
    cases hn : pyFloat? v with
    | none => have := hp v hv; rw [hn] at this; simp at this
    | some q => exact ⟨{ s with reset_timestamp := q }, by simp [parseResetStep, hv, hn]⟩

theorem parseRetryAfterStep_ok (h : Headers) (s : RateLimitState)
    (hp : ∀ v, h "retry-after" = some v → (pyInt? v).isSome = true) :
    ∃ s', parseRetryAfterStep h s = .ok s' := by
  cases hv : h "retry-after" with
  | none => exact ⟨s, by simp [parseRetryAfterStep, hv]⟩
  | some v =>
    cases hn : pyInt? v with
    | none => have := hp v hv; rw [hn] at this; simp at this
    | some n => exact ⟨{ s with retry_after := some n }, by simp [parseRetryAfterStep, hv, hn]⟩

theorem parseQuotaHeaders_ok_of_parsesOK (h : Headers) (s : RateLimitState)
    (hp : parsesOK h) : ∃ s', parseQuotaHeaders h s = .ok s' := by
  obtain ⟨s1, h1⟩ := parseRemainingStep_ok h s hp.1
  obtain ⟨s2, h2⟩ := parseResetStep_ok h s1 hp.2.1
  obtain ⟨s3, h3⟩ := parseRetryAfterStep_ok h s2 hp.2.2
  exact ⟨s3, by simp [parseQuotaHeaders, h1, h2, h3]⟩

/-- Bookkeeping effect of a parse-clean 429 response: the failure counter
increments, the breaker duration is configuration and survives, and once
the incremented counter reaches 3 the breaker opens until now plus the
configured duration. -/
theorem update_429_effect (svc : RateLimiterService) (h : Headers) (now : ℚ)
    (hp : parsesOK h) :
    (update_from_headers svc h 429 now).1.consecutive_failures =
      svc.consecutive_failures + 1 ∧
    (update_from_headers svc h 429 now).1.circuit_breaker_duration =
      svc.circuit_breaker_duration ∧
    (3 ≤ svc.consecutive_failures + 1 →
      (update_from_headers svc h 429 now).1.circuit_breaker_until =
        now + svc.circuit_breaker_duration) := by
  obtain ⟨s', hs'⟩ := parseQuotaHeaders_ok_of_parsesOK h svc.state hp
  unfold update_from_headers
  rw [hs']
  by_cases h3 : 3 ≤ svc.consecutive_failures + 1 <;> simp [h3]

/-- C2: three consecutive parse-clean 429 responses leave the breaker open
at the time of the third response (open_until is strictly in the future);
any parse-clean non-429 response resets the consecutive-failure counter to
zero; and once open_until has elapsed the breaker reports closed and the
dispatch loop's wait decision is not a breaker wait (no half-open state). -/
theorem c2_circuit_breaker (svc : RateLimiterService) (h1 h2 h3 : Headers)
    (t1 t2 t3 : ℚ) (hp1 : parsesOK h1) (hp2 : parsesOK h2) (hp3 : parsesOK h3)
    (hdur : 0 < svc.circuit_breaker_duration) :
    circuitBreakerActive
      (update_from_headers
        (update_from_headers
          (update_from_headers svc h1 429 t1).1 h2 429 t2).1 h3 429 t3).1 t3 = true ∧
    (∀ (svc' : RateLimiterService) (h : Headers) (status : Int) (t : ℚ),
        parsesOK h → status ≠ 429 →
        (update_from_headers svc' h status t).1.consecutive_failures = 0) ∧
    (∀ (svc' : RateLimiterService) (now : ℚ), svc'.circuit_breaker_until ≤ now →
        circuitBreakerActive svc' now = false ∧
        isBreakerWait (should_wait_decision svc' now) = false) := by
  refine ⟨?_, ?_, ?_⟩
  · have e1 := update_429_effect svc h1 t1 hp1
    set u1 := (update_from_headers svc h1 429 t1).1 with hu1
    have e2 := update_429_effect u1 h2 t2 hp2
    set u2 := (update_from_headers u1 h2 429 t2).1 with hu2
    have e3 := update_429_effect u2 h3 t3 hp3
    set u3 := (update_from_headers u2 h3 429 t3).1 with hu3
    have hcf2 : 3 ≤ u2.consecutive_failures + 1 := by
      rw [e2.1, e1.1]; omega
    have huntil : u3.circuit_breaker_until = t3 + u2.circuit_breaker_duration :=
      e3.2.2 hcf2
    have hdur2 : u2.circuit_breaker_duration = svc.circuit_breaker_duration := by
      rw [e2.2.1, e1.2.1]
    unfold circuitBreakerActive
    rw [huntil, hdur2]
    simpa using hdur
  · intro svc' h status t hp hst
    obtain ⟨s', hs'⟩ := parseQuotaHeaders_ok_of_parsesOK h svc'.state hp
    unfold update_from_headers
    rw [hs']
    simp [hst]
  · intro svc' now hle
    constructor
    · unfold circuitBreakerActive
      simpa using not_lt.2 hle
    · unfold should_wait_decision
      rw [if_neg (not_lt.2 hle)]
      by_cases hex : is_exhausted svc'.state now = true
      · simp [hex, isBreakerWait]
      · by_cases hlow : svc'.state.remaining ≤ 10 <;>
          simp [hex, hlow, isBreakerWait]

/-- C2 counterexample: three consecutive 429 responses whose reset header
fails numeric parsing never touch the failure counter (the except clause
swallows the whole bookkeeping), so the breaker stays closed - the claim
is false for arbitrary header maps. -/
def hBadResetOnly : Headers :=
  fun k => if k = "x-ratelimit-reset" then some "not-a-number" else none

theorem c2_counterexample :
    (update_from_headers
      (update_from_headers
        (update_from_headers initService hBadResetOnly 429 0).1
        hBadResetOnly 429 0).1 hBadResetOnly 429 0).1.consecutive_failures = 0 ∧
    circuitBreakerActive
      (update_from_headers
        (update_from_headers
          (update_from_headers initService hBadResetOnly 429 0).1
          hBadResetOnly 429 0).1 hBadResetOnly 429 0).1 0 = false := by
  decide

/-- The empty header map (a response with no quota headers). -/
def hEmpty : Headers := fun _ => none

/-- Witness for c2_circuit_breaker: three bare 429 responses at time 0 on
a fresh production dispatcher leave the breaker open at time 0. -/
theorem c2_circuit_breaker_witness :
    (0 : ℚ) < initService.circuit_breaker_duration ∧
    circuitBreakerActive
      (update_from_headers
        (update_from_headers
          (update_from_headers initService hEmpty 429 0).1 hEmpty 429 0).1
        hEmpty 429 0).1 0 = true :=
  ⟨by norm_num [initService],
    (c2_circuit_breaker initService hEmpty hEmpty hEmpty 0 0 0
      ⟨fun _ hv => (nomatch hv), fun _ hv => (nomatch hv), fun _ hv => (nomatch hv)⟩
      ⟨fun _ hv => (nomatch hv), fun _ hv => (nomatch hv), fun _ hv => (nomatch hv)⟩
      ⟨fun _ hv => (nomatch hv), fun _ hv => (nomatch hv), fun _ hv => (nomatch hv)⟩
      (by norm_num [initService])).1⟩

/-! ## Claim C7 -/

/-- C7: after a response for a target carries an entity tag, the
conditional headers for that same target echo it back as If-None-Match;
and a target with no stored validators gets an empty header map. -/
theorem c7_conditional_cache (svc : RateLimiterService) (url : String)
    (h : Headers) (v : String) :
    (h "etag" = some v →
      lookupHeader (get_conditional_headers (update_cache_headers svc url h) url)
        "If-None-Match" = some v) ∧
    (svc.etag_cache url = none → svc.last_modified_cache url = none →
      get_conditional_headers svc url = []) := by
  constructor
  · intro he
    unfold update_cache_headers
    rw [he]
    cases hlm : h "last-modified" <;>
      simp [get_conditional_headers, lookupHeader]
  · intro h1 h2
    simp [get_conditional_headers, h1, h2]

/-- Witness for c7_conditional_cache: caching etag abc for one target makes
its conditional headers echo If-None-Match abc; an uncached target gets
an empty map. -/
theorem c7_conditional_cache_witness :
    (hdrs [("etag", "abc")]) "etag" = some "abc" ∧
    lookupHeader
      (get_conditional_headers
        (update_cache_headers initService "https://stickerdom.store/c/1"
          (hdrs [("etag", "abc")]))
        "https://stickerdom.store/c/1") "If-None-Match" = some "abc" ∧
    get_conditional_headers initService "https://stickerdom.store/c/2" = [] :=
  ⟨rfl,
    (c7_conditional_cache initService "https://stickerdom.store/c/1"
      (hdrs [("etag", "abc")]) "abc").1 rfl,
    (c7_conditional_cache initService "https://stickerdom.store/c/2"
      (hdrs []) "").2 rfl rfl⟩

/-! ## Claim C8 -/

/-- The state carried by either result of a parse phase (ok or raised). -/
def exState : Except RateLimitState RateLimitState → RateLimitState
  | .ok s => s
  | .error s => s

theorem parseResetStep_remaining (h : Headers) (s : RateLimitState) :
    (exState (parseResetStep h s)).remaining = s.remaining := by
  cases hv : h "x-ratelimit-reset" with
  | none => simp [parseResetStep, hv, exState]
  | some v =>
    cases hq : pyFloat? v with
    | none => simp [parseResetStep, hv, hq, exState]
    | some q => simp [parseResetStep, hv, hq, exState]

theorem parseRetryAfterStep_remaining (h : Headers) (s : RateLimitState) :
    (exState (parseRetryAfterStep h s)).remaining = s.remaining := by
  cases hv : h "retry-after" with
  | none => simp [parseRetryAfterStep, hv, exState]
  | some v =>
    cases hq : pyInt? v with
    | none => simp [parseRetryAfterStep, hv, hq, exState]
    | some q => simp [parseRetryAfterStep, hv, hq, exState]

/-- The remaining field after the full parse phase: untouched when the
x-ratelimit-remaining header is absent or unparsable, else the parsed
value. -/
theorem parseQuotaHeaders_remaining_cases (h : Headers) (s : RateLimitState) :
    ((h "x-ratelimit-remaining" = none ∨
        ∃ v, h "x-ratelimit-remaining" = some v ∧ pyInt? v = none) ∧
      (exState (parseQuotaHeaders h s)).remaining = s.remaining) ∨
    ∃ v n, h "x-ratelimit-remaining" = some v ∧ pyInt? v = some n ∧
      (exState (parseQuotaHeaders h s)).remaining = n := by
  have tail : ∀ s1 : RateLimitState,
      (exState (match parseResetStep h s1 with
        | .error s' => Except.error s'
        | .ok s2 => parseRetryAfterStep h s2)).remaining = s1.remaining := by
    intro s1
    cases hr : parseResetStep h s1 with
    | error s' =>
      have h2 := parseResetStep_remaining h s1
      rw [hr] at h2
      exact h2
    | ok s2 =>
      have h2 := parseResetStep_remaining h s1
      rw [hr] at h2
      simp only [exState] at h2
      have h3 := parseRetryAfterStep_remaining h s2
      exact h3.trans h2
  cases hv : h "x-ratelimit-remaining" with
  | none =>
    have h1 : parseRemainingStep h s = .ok s := by simp [parseRemainingStep, hv]
    refine Or.inl ⟨Or.inl rfl, ?_⟩
    unfold parseQuotaHeaders
    rw [h1]
    exact tail s
  | some v =>
    cases hn : pyInt? v with
    | none =>
      have h1 : parseRemainingStep h s = .error s := by
        simp [parseRemainingStep, hv, hn]
      refine Or.inl ⟨Or.inr ⟨v, rfl, hn⟩, ?_⟩
      unfold parseQuotaHeaders
      rw [h1]
      simp [exState]
    | some n =>
      have h1 : parseRemainingStep h s = .ok { s with remaining := n } := by
        simp [parseRemainingStep, hv, hn]
      refine Or.inr ⟨v, n, rfl, hn, ?_⟩
      unfold parseQuotaHeaders
      rw [h1]
      exact tail { s with remaining := n }

/-- The remaining field after update_from_headers equals the remaining
field after the parse phase (the 429 bookkeeping never touches it). -/
theorem update_remaining_eq (svc : RateLimiterService) (h : Headers)
    (status : Int) (now : ℚ) :
    (update_from_headers svc h status now).1.state.remaining =
      (exState (parseQuotaHeaders h svc.state)).remaining := by
  unfold update_from_headers
  cases parseQuotaHeaders h svc.state with
  | error s' => rfl
  | ok s1 =>
    by_cases h429 : status = 429
    · by_cases h3 : 3 ≤ svc.consecutive_failures + 1 <;> simp [h429, h3, exState]
    · simp [h429, exState]

/-- Hypothesis for the amended C8: every x-ratelimit-remaining value that
parses at all parses to a nonnegative integer. -/
def remainingHeaderNonneg (h : Headers) : Prop :=
  ∀ v n, h "x-ratelimit-remaining" = some v → pyInt? v = some n → 0 ≤ n

/-- C8 counterexample: a response whose x-ratelimit-remaining header is
the string -1 is stored as is, driving remaining below zero. -/
def hNegRemaining : Headers :=
  fun k => if k = "x-ratelimit-remaining" then some "-1" else none

theorem c8_counterexample :
    (update_from_headers initService hNegRemaining 200 0).1.state.remaining = -1 ∧
    ¬(0 ≤ (update_from_headers initService hNegRemaining 200 0).1.state.remaining) := by
  decide

/-- C8 amended: provided every x-ratelimit-remaining header value that
parses is nonnegative, the stored remaining value stays nonnegative across
every sequence of update_from_headers calls from the initial state (the
code performs no clamping, so a negative header value would be stored). -/
theorem c8_amended_remaining_nonneg (calls : List (Headers × Int × ℚ))
    (hall : ∀ c ∈ calls, remainingHeaderNonneg c.1) :
    0 ≤ (runUpdates initService calls).state.remaining := by
  have key : ∀ (cs : List (Headers × Int × ℚ)) (svc : RateLimiterService),
      (∀ c ∈ cs, remainingHeaderNonneg c.1) → 0 ≤ svc.state.remaining →
      0 ≤ (runUpdates svc cs).state.remaining := by
    intro cs
    induction cs with
    | nil => intro svc _ h0; exact h0
    | cons c rest ih =>
      intro svc hcs h0
      have hstep : 0 ≤ (update_from_headers svc c.1 c.2.1 c.2.2).1.state.remaining := by
        rw [update_remaining_eq]
        rcases parseQuotaHeaders_remaining_cases c.1 svc.state with ⟨-, he⟩ | ⟨v, n, hv, hn, he⟩
        · rw [he]; exact h0
        · rw [he]; exact hcs c (List.mem_cons_self c rest) v n hv hn
      have hrest : ∀ c' ∈ rest, remainingHeaderNonneg c'.1 :=
        fun c' hc' => hcs c' (List.mem_cons_of_mem c hc')
      have : runUpdates svc (c :: rest) =
          runUpdates (update_from_headers svc c.1 c.2.1 c.2.2).1 rest := rfl
      rw [this]
      exact ih _ hrest hstep
  exact key calls initService hall (by norm_num [initService])

/-- Witness for c8_amended_remaining_nonneg on one bare 429 call. -/
theorem c8_amended_remaining_nonneg_witness :
    (runUpdates initService [(hEmpty, 429, 0)]).state.remaining = 1000 ∧
    0 ≤ (runUpdates initService [(hEmpty, 429, 0)]).state.remaining :=
  ⟨by decide,
    c8_amended_remaining_nonneg [(hEmpty, 429, 0)]
      (fun c hc => by
        rcases List.mem_singleton.1 hc with rfl
        exact fun v n hv _ => (nomatch hv))⟩

/-! ## Claim C9 -/

/-- C9: execute_task never raises - every outcome of the underlying
purchase operation, a thrown exception included, maps to a WorkerResult;
a thrown exception maps to success false carrying its description; a
result carries an error exactly when it is a failure; and over any batch
of independently executed tasks the number of failed WorkerResults equals
the number of failing outcomes, so one failing task among several yields
exactly one failed result while the others are unaffected. -/
theorem c9_worker_failure_isolation :
    (∀ (wid : Nat) (proxy : String) (t : ℚ)
        (o : Except String (List PurchaseResult)),
        (executeTask wid proxy t o).success = taskSucceeds o) ∧
    (∀ (wid : Nat) (proxy : String) (t : ℚ) (e : String),
        executeTask wid proxy t (.error e) =
          { worker_id := wid, success := false, stickers_bought := 0,
            error := some e, proxy_used := some proxy, execution_time := t }) ∧
    (∀ (wid : Nat) (proxy : String) (t : ℚ)
        (o : Except String (List PurchaseResult)),
        ((executeTask wid proxy t o).error).isSome =
          !(executeTask wid proxy t o).success) ∧
    (∀ (wid : Nat) (proxy : String) (t : ℚ)
        (outs : List (Except String (List PurchaseResult))),
        ((outs.map (executeTask wid proxy t)).countP (fun r => !r.success)) =
          outs.countP (fun o => !taskSucceeds o)) := by
  have hsucc : ∀ (wid : Nat) (proxy : String) (t : ℚ)
      (o : Except String (List PurchaseResult)),
      (executeTask wid proxy t o).success = taskSucceeds o := by
    intro wid proxy t o
    cases o with
    | error e => rfl
    | ok results =>
      by_cases hc : 0 < (results.filter (fun r => r.is_successful)).length <;>
        simp [executeTask, taskSucceeds, hc]
  refine ⟨hsucc, fun _ _ _ _ => rfl, ?_, ?_⟩
  · intro wid proxy t o
    cases o with
    | error e => rfl
    | ok results =>
      by_cases hc : 0 < (results.filter (fun r => r.is_successful)).length <;>
        simp [executeTask, hc]
  · intro wid proxy t outs
    rw [List.countP_map]
    apply List.countP_congr
    intro o _
    simp [Function.comp, hsucc wid proxy t o]

/-! ## Claim C5 -/

/-- Retry-count bound along an item's whole trace, given a live item
(its retry count strictly below its budget). -/
theorem runItem_bound :
    ∀ (outs : List Outcome) (it : RequestItem), it.retries < it.max_retries →
      ∀ s ∈ runItem it outs, boundOK it.max_retries s
  | [], it, _, s, hs => by simp [runItem] at hs
  | o :: rest, it, hlt, s, hs => by
    cases o with
    | ok =>
      simp only [runItem, processAttempt] at hs
      rcases List.mem_singleton.1 hs with rfl
      trivial
    | err e =>
      by_cases hb : it.retries + 1 < it.max_retries
      · have hrun : runItem it (.err e :: rest) =
            .reenqueued (retryBump it) :: runItem (retryBump it) rest := by
          simp [runItem, processAttempt, retryBump, hb]
        rw [hrun] at hs
        rcases List.mem_cons.1 hs with rfl | hs'
        · exact le_of_lt hb
        · have hlt' : (retryBump it).retries < (retryBump it).max_retries := by
            simpa [retryBump] using hb
          have := runItem_bound rest (retryBump it) hlt' s hs'
          simpa [retryBump] using this
      · have hrun : runItem it (.err e :: rest) = [.rejected (retryBump it) e] := by
          simp [runItem, processAttempt, retryBump, hb]
        rw [hrun] at hs
        rcases List.mem_singleton.1 hs with rfl
        exact Nat.succ_le_of_lt hlt

/-- C5 amended: for an item entering the loop with retry count 0 and a
positive retry budget - every failed attempt increments the count by
exactly one; the item is re-enqueued exactly while the incremented count
is still below max_retries; at max_retries the item is rejected carrying
the error of that last failing attempt; and no disposition in the item's
trace ever carries a retry count above max_retries. -/
theorem c5_retry_budget (it : RequestItem) (h0 : it.retries = 0)
    (h1 : 1 ≤ it.max_retries) (outs : List Outcome) :
    (∀ (it₀ : RequestItem) (e : String) (it₁ : RequestItem),
        processAttempt it₀ (.err e) = .reenqueued it₁ →
          it₁.retries = it₀.retries + 1) ∧
    (∀ (it₀ : RequestItem) (e : String) (it₁ : RequestItem) (e' : String),
        processAttempt it₀ (.err e) = .rejected it₁ e' →
          it₁.retries = it₀.retries + 1 ∧ e' = e) ∧
    (∀ (it₀ : RequestItem) (e : String), it₀.retries + 1 < it₀.max_retries →
        processAttempt it₀ (.err e) = .reenqueued (retryBump it₀)) ∧
    (∀ (it₀ : RequestItem) (e : String), it₀.max_retries ≤ it₀.retries + 1 →
        processAttempt it₀ (.err e) = .rejected (retryBump it₀) e) ∧
    (∀ s ∈ runItem it outs, boundOK it.max_retries s) := by
  refine ⟨?_, ?_, ?_, ?_, ?_⟩
  · intro it₀ e it₁ hp
    by_cases hb : it₀.retries + 1 < it₀.max_retries
    · simp only [processAttempt, retryBump, hb, if_pos] at hp
      cases hp
      rfl
    · simp [processAttempt, retryBump, hb] at hp
  · intro it₀ e it₁ e' hp
    by_cases hb : it₀.retries + 1 < it₀.max_retries
    · simp [processAttempt, retryBump, hb] at hp
    · simp only [processAttempt, retryBump, hb, if_neg] at hp
      cases hp
      exact ⟨rfl, rfl⟩
  · intro it₀ e hb
    simp [processAttempt, retryBump, hb]
  · intro it₀ e hb
    have : ¬(it₀.retries + 1 < it₀.max_retries) := by omega
    simp [processAttempt, retryBump, this]
  · exact runItem_bound outs it (by omega)

/-- A fresh item with the default retry budget. -/
def itemFresh : RequestItem :=
  { priority := 3, created_at := 0, uid := 0, retries := 0, max_retries := 5 }

/-- Witness for c5_retry_budget: a fresh item failing once is re-enqueued
with its count within budget. -/
theorem c5_retry_budget_witness :
    itemFresh.retries = 0 ∧ 1 ≤ itemFresh.max_retries ∧
    boundOK itemFresh.max_retries (.reenqueued (retryBump itemFresh)) :=
  ⟨rfl, by decide,
    (c5_retry_budget itemFresh rfl (by decide) [.err "boom"]).2.2.2.2
      (.reenqueued (retryBump itemFresh)) (by decide)⟩

/-- An item submitted with max_retries 0, as execute_with_rate_limit
permits. -/
def itemNoBudget : RequestItem :=
  { priority := 3, created_at := 0, uid := 0, retries := 0, max_retries := 0 }

/-- C5 counterexample: with max_retries 0 the first failure increments the
item's retry count to 1, which exceeds its max_retries - the claimed bound
fails for such an item. -/
theorem c5_counterexample :
    runItem itemNoBudget [.err "boom"] = [.rejected (retryBump itemNoBudget) "boom"] ∧
    (retryBump itemNoBudget).retries = 1 ∧
    (retryBump itemNoBudget).max_retries = 0 ∧
    ¬((retryBump itemNoBudget).retries ≤ (retryBump itemNoBudget).max_retries) := by
  decide

/-! ## Claim C10 -/

/-- A parse failure in any of the three quota headers aborts the update:
parseQuotaHeaders raises. -/
theorem parseQuotaHeaders_error_of_failure (h : Headers) (s : RateLimitState)
    (hf : hasParseFailure h) : ∃ s', parseQuotaHeaders h s = .error s' := by
  rcases hf with ⟨v, hv, hn⟩ | ⟨v, hv, hn⟩ | ⟨v, hv, hn⟩
  · have h1 : parseRemainingStep h s = .error s := by
      simp [parseRemainingStep, hv, hn]
    exact ⟨s, by simp [parseQuotaHeaders, h1]⟩
  · cases hrem : parseRemainingStep h s with
    | error s' => exact ⟨s', by simp [parseQuotaHeaders, hrem]⟩
    | ok s1 =>
      have h1 : parseResetStep h s1 = .error s1 := by
        simp [parseResetStep, hv, hn]
      exact ⟨s1, by simp [parseQuotaHeaders, hrem, h1]⟩
  · cases hrem : parseRemainingStep h s with
    | error s' => exact ⟨s', by simp [parseQuotaHeaders, hrem]⟩
    | ok s1 =>
      cases hres : parseResetStep h s1 with
      | error s' => exact ⟨s', by simp [parseQuotaHeaders, hrem, hres]⟩
      | ok s2 =>
        have h1 : parseRetryAfterStep h s2 = .error s2 := by
          simp [parseRetryAfterStep, hv, hn]
        exact ⟨s2, by simp [parseQuotaHeaders, hrem, hres, h1]⟩

/-- C10: when some present quota header fails numeric parsing, the call
returns without persisting a snapshot, without touching the
consecutive-failure counter and without touching the breaker deadline -
whatever the status code, 429 included - while an x-ratelimit-remaining
value parsed before the failure remains applied (the update is not
atomic). -/
theorem c10_parse_failure_swallowed (svc : RateLimiterService) (h : Headers)
    (status : Int) (now : ℚ) (hf : hasParseFailure h) :
    (update_from_headers svc h status now).2 = false ∧
    (update_from_headers svc h status now).1.consecutive_failures =
      svc.consecutive_failures ∧
    (update_from_headers svc h status now).1.circuit_breaker_until =
      svc.circuit_breaker_until ∧
    (∀ v n, h "x-ratelimit-remaining" = some v → pyInt? v = some n →
      (update_from_headers svc h status now).1.state.remaining = n) := by
  obtain ⟨s', hs'⟩ := parseQuotaHeaders_error_of_failure h svc.state hf
  refine ⟨?_, ?_, ?_, ?_⟩
  · unfold update_from_headers
    rw [hs']
  · unfold update_from_headers
    rw [hs']
  · unfold update_from_headers
    rw [hs']
  · intro v n hv hn
    rw [update_remaining_eq]
    rcases parseQuotaHeaders_remaining_cases h svc.state
      with ⟨hno | ⟨w, hw, hwn⟩, he⟩ | ⟨v', n', hv', hn', he⟩
    · rw [hv] at hno
      exact Option.noConfusion hno
    · rw [hv] at hw
      have hvw := Option.some.inj hw
      rw [← hvw, hn] at hwn
      exact Option.noConfusion hwn
    · rw [hv'] at hv
      have h1 := Option.some.inj hv
      subst h1
      rw [hn] at hn'
      rw [he]
      exact (Option.some.inj hn').symm

/-- A response whose remaining header parses but whose reset header does
not (int parses 100, float chokes on abc). -/
def hBadReset : Headers := fun k =>
  if k = "x-ratelimit-remaining" then some "100"
  else if k = "x-ratelimit-reset" then some "abc" else none

/-- Witness for c10_parse_failure_swallowed: a 429 response with
remaining 100 and an unparsable reset value leaves the failure counter and
breaker deadline untouched, skips the snapshot save, and keeps the already
parsed remaining value of 100. -/
theorem c10_parse_failure_swallowed_witness :
    hasParseFailure hBadReset ∧
    (update_from_headers initService hBadReset 429 0).2 = false ∧
    (update_from_headers initService hBadReset 429 0).1.consecutive_failures = 0 ∧
    (update_from_headers initService hBadReset 429 0).1.circuit_breaker_until = 0 ∧
    (update_from_headers initService hBadReset 429 0).1.state.remaining = 100 :=
  have hf : hasParseFailure hBadReset :=
    Or.inr (Or.inl ⟨"abc", by decide, by decide⟩)
  ⟨hf,
    (c10_parse_failure_swallowed initService hBadReset 429 0 hf).1,
    (c10_parse_failure_swallowed initService hBadReset 429 0 hf).2.1,
    (c10_parse_failure_swallowed initService hBadReset 429 0 hf).2.2.1,
    (c10_parse_failure_swallowed initService hBadReset 429 0 hf).2.2.2 "100" 100
      (by decide) (by decide)⟩

end TgStickers
